import Mathlib

/-!
Shallow embedding of the idle-game state engine in `src/stores/gameStore.ts`:
the grid model, the resource-rate calculator, the adjacency and affordability
predicates, and the three mutating operations `buyTile`, `upgradeCastle` and
`tick`.  JavaScript numbers are modelled as rationals, the grid as a function
from coordinates to tiles, and the implicit random generator as an explicit
index parameter.
-/

namespace Idlarz

/-- The resource holdings bundle (`Resources` in `types/game.ts`):
gold, wood, stone, coal, food, plus a separate experience counter. -/
structure Resources where
  gold : ℚ
  wood : ℚ
  stone : ℚ
  coal : ℚ
  food : ℚ
  xp : ℚ
deriving Repr, DecidableEq

/-- The five-kind bundle used by the rate calculator (the shape of the
`modifiers` literal and of the generation-rate constants): gold, wood,
stone, coal, food. -/
structure RBundle where
  gold : ℚ
  wood : ℚ
  stone : ℚ
  coal : ℚ
  food : ℚ
deriving Repr, DecidableEq

/-- A partial per-biome modifier bundle (`resourceModifiers` of a biome
entry): each resource kind optionally carries a multiplicative factor. -/
structure BiomeMods where
  gold : Option ℚ := none
  wood : Option ℚ := none
  stone : Option ℚ := none
  coal : Option ℚ := none
  food : Option ℚ := none
deriving Repr, DecidableEq

/-- A partial resource cost bundle (the shape of a castle upgrade cost):
each resource kind optionally carries a required amount. -/
structure PCost where
  gold : Option ℚ := none
  wood : Option ℚ := none
  stone : Option ℚ := none
  coal : Option ℚ := none
  food : Option ℚ := none
  xp : Option ℚ := none
deriving Repr, DecidableEq

/-- One grid cell (`Tile` in `types/game.ts`): a biome name, an ownership
flag, and the optional castle fields `level` and `upgradeCost`. -/
structure Tile where
  biome : String
  isOwned : Bool
  level : Option ℕ := none
  upgradeCost : Option PCost := none
deriving Repr, DecidableEq

/-- The grid, modelled as a total function from (row, column) to tiles;
the code only ever reads cells with `0 ≤ y < GRID_HEIGHT` and
`0 ≤ x < GRID_SIZE`. -/
def GridF : Type := ℕ → ℕ → Tile

/-- Modelled from the spec: the static configuration (`gameConfig.ts` is not
among the sources).  It bundles the named constants the store imports:
grid dimensions, the fixed tile purchase cost, initial holdings, the global
base generation rates, the castle base rates, the biome catalog with its
per-biome modifier factors, and the castle upgrade table
(`maxLevel`, `levelMultiplier`, `upgradeCosts`). -/
structure Config where
  GRID_SIZE : ℕ
  GRID_HEIGHT : ℕ
  TILE_PURCHASE_COST : ℚ
  INITIAL_RESOURCES : Resources
  BASE_GENERATION_RATES : RBundle
  CASTLE_BASE_RATES : RBundle
  BIOMES : List (String × BiomeMods)
  maxLevel : ℕ
  levelMultiplier : ℚ
  upgradeCosts : List PCost

/-- `GRID_CENTER_X = Math.floor(GRID_SIZE / 2)`. -/
def Config.centerX (cfg : Config) : ℕ := cfg.GRID_SIZE / 2

/-- `GRID_CENTER_Y = Math.floor(GRID_HEIGHT / 2)`. -/
def Config.centerY (cfg : Config) : ℕ := cfg.GRID_HEIGHT / 2

/-- `createInitialGrid`: every cell is an unowned empty tile, except the
center cell which is the owned castle at level 1 with the first catalog
upgrade cost. -/
def createInitialGrid (cfg : Config) : GridF := fun y x =>
  if y = cfg.centerY ∧ x = cfg.centerX then
    { biome := "castle", isOwned := true, level := some 1,
      upgradeCost := cfg.upgradeCosts[0]? }
  else
    { biome := "empty", isOwned := false }

/-- Pointwise update of a single grid cell (the row-copy-then-cell-copy
update in the store). -/
def setTile (g : GridF) (y x : ℕ) (t : Tile) : GridF := fun y1 x1 =>
  if y1 = y ∧ x1 = x then t else g y1 x1

/-- Pointwise addition of five-kind bundles. -/
def addB (a b : RBundle) : RBundle :=
  { gold := a.gold + b.gold, wood := a.wood + b.wood, stone := a.stone + b.stone,
    coal := a.coal + b.coal, food := a.food + b.food }

/-- Pointwise multiplication of five-kind bundles. -/
def mulB (a b : RBundle) : RBundle :=
  { gold := a.gold * b.gold, wood := a.wood * b.wood, stone := a.stone * b.stone,
    coal := a.coal * b.coal, food := a.food * b.food }

/-- The all-ones bundle (the initial `modifiers` literal). -/
def oneB : RBundle := { gold := 1, wood := 1, stone := 1, coal := 1, food := 1 }

/-- The castle contribution for one castle tile: each castle base rate scaled
by `levelMultiplier ^ (level - 1)`, where `tile.level || 1` reads a missing
or zero level as 1. -/
def scaledCastleRates (cfg : Config) (t : Tile) : RBundle :=
  let l := t.level.getD 1
  let level := if l = 0 then 1 else l
  let multiplier := cfg.levelMultiplier ^ (level - 1)
  { gold := cfg.CASTLE_BASE_RATES.gold * multiplier,
    wood := cfg.CASTLE_BASE_RATES.wood * multiplier,
    stone := cfg.CASTLE_BASE_RATES.stone * multiplier,
    coal := cfg.CASTLE_BASE_RATES.coal * multiplier,
    food := cfg.CASTLE_BASE_RATES.food * multiplier }

/-- The predicate of the castle scan: the cell is owned and its biome is
the castle biome. -/
def isOwnedCastle (tiles : GridF) (y x : ℕ) : Bool :=
  (tiles y x).isOwned && (tiles y x).biome == "castle"

/-- The castle scan of `calculateResourceRates`: for each row, find the first
owned castle cell and add its scaled rates to the accumulator.  The `break`
in the source exits only the inner loop, so each row containing an owned
castle contributes once. -/
def castleScanBase (cfg : Config) (tiles : GridF) : RBundle :=
  (List.range cfg.GRID_HEIGHT).foldl (fun b y =>
    match (List.range cfg.GRID_SIZE).find? (fun x => isOwnedCastle tiles y x) with
    | none => b
    | some x => addB b (scaledCastleRates cfg (tiles y x))) cfg.BASE_GENERATION_RATES

/-- Multiply a modifier bundle by the factors a biome declares (absent
factors leave the component unchanged). -/
def applyBiomeMods (m : RBundle) (p : BiomeMods) : RBundle :=
  { gold := m.gold * p.gold.getD 1, wood := m.wood * p.wood.getD 1,
    stone := m.stone * p.stone.getD 1, coal := m.coal * p.coal.getD 1,
    food := m.food * p.food.getD 1 }

/-- Catalog lookup `BIOMES[name]`, reading a missing entry as declaring no
modifier factors. -/
def lookupBiome (cfg : Config) (name : String) : BiomeMods :=
  ((cfg.BIOMES.find? (fun e => e.1 == name)).map Prod.snd).getD {}

/-- The modifier scan of `calculateResourceRates`: over every owned tile of
the grid, compound the tile biome's factors multiplicatively. -/
def modifierScan (cfg : Config) (tiles : GridF) : RBundle :=
  (List.range cfg.GRID_HEIGHT).foldl (fun m y =>
    (List.range cfg.GRID_SIZE).foldl (fun m1 x =>
      if (tiles y x).isOwned then applyBiomeMods m1 (lookupBiome cfg (tiles y x).biome)
      else m1) m) oneB

/-- The derived rates structure `{base, modifiers, total}`. -/
structure ResourceRates where
  base : RBundle
  modifiers : RBundle
  total : RBundle
deriving Repr, DecidableEq

/-- `calculateResourceRates`: base from the global rates plus the castle
scan, modifiers from the owned-tile scan, and `total = base * modifiers`
componentwise. -/
def calculateResourceRates (cfg : Config) (tiles : GridF) : ResourceRates :=
  let base := castleScanBase cfg tiles
  let modifiers := modifierScan cfg tiles
  { base := base, modifiers := modifiers, total := mulB base modifiers }

/-- `isAdjacentToOwned`: some 4-directional neighbor (left, right, up, down)
lies within grid bounds and is owned. -/
def isAdjacentToOwned (cfg : Config) (tiles : GridF) (x y : ℕ) : Bool :=
  ([(-1, 0), (1, 0), (0, -1), (0, 1)] : List (ℤ × ℤ)).any (fun d =>
    let newX : ℤ := (x : ℤ) + d.1
    let newY : ℤ := (y : ℤ) + d.2
    decide (0 ≤ newX) && decide (newX < (cfg.GRID_SIZE : ℤ)) &&
    decide (0 ≤ newY) && decide (newY < (cfg.GRID_HEIGHT : ℤ)) &&
    (tiles newY.toNat newX.toNat).isOwned)

/-- `canAffordCost` on a resource-bundle cost: every resource named in the
cost is held in at least the required amount. -/
def canAffordCost (res : Resources) (cost : PCost) : Bool :=
  (cost.gold.all (fun a => a ≤ res.gold)) &&
  (cost.wood.all (fun a => a ≤ res.wood)) &&
  (cost.stone.all (fun a => a ≤ res.stone)) &&
  (cost.coal.all (fun a => a ≤ res.coal)) &&
  (cost.food.all (fun a => a ≤ res.food)) &&
  (cost.xp.all (fun a => a ≤ res.xp))

/-- Subtract every resource named in a cost from the holdings; resources the
cost does not name are unchanged. -/
def deductCost (res : Resources) (cost : PCost) : Resources :=
  { gold := match cost.gold with | some a => res.gold - a | none => res.gold,
    wood := match cost.wood with | some a => res.wood - a | none => res.wood,
    stone := match cost.stone with | some a => res.stone - a | none => res.stone,
    coal := match cost.coal with | some a => res.coal - a | none => res.coal,
    food := match cost.food with | some a => res.food - a | none => res.food,
    xp := match cost.xp with | some a => res.xp - a | none => res.xp }

/-- The store state slice the engine mutates: the grid, the holdings, the
derived rates and the mirrored modifier bundle. -/
structure GameState where
  tiles : GridF
  resources : Resources
  resourceRates : ResourceRates
  resourceModifiers : RBundle

/-- The initial store state: initial grid, initial holdings, rates computed
from the initial grid. -/
def initState (cfg : Config) : GameState :=
  let initialGrid := createInitialGrid cfg
  let initialRates := calculateResourceRates cfg initialGrid
  { tiles := initialGrid, resources := cfg.INITIAL_RESOURCES,
    resourceRates := initialRates, resourceModifiers := initialRates.modifiers }

/-- `availableBiomes` inside `buyTile`: the catalog entries whose name is not
empty, castle or grounds, in catalog order. -/
def availableBiomes (cfg : Config) : List String :=
  (cfg.BIOMES.filter (fun e =>
    !((["empty", "castle", "grounds"] : List String).contains e.1))).map Prod.fst

/-- `buyTile (x, y)`.  The implicit `Math.random()` draw is modelled by the
explicit index `r`: the selected biome is `availableBiomes[r % length]`.
Returns the new state and the success flag; on failure the state is
returned unchanged. -/
def buyTile (cfg : Config) (s : GameState) (x y : ℕ) (r : ℕ) : GameState × Bool :=
  let tile := s.tiles y x
  if tile.isOwned || !(isAdjacentToOwned cfg s.tiles x y) then (s, false)
  else if s.resources.gold < cfg.TILE_PURCHASE_COST then (s, false)
  else
    let avail := availableBiomes cfg
    let randomBiome := avail.getD (r % avail.length) "empty"
    let newTiles := setTile s.tiles y x { biome := randomBiome, isOwned := true }
    let newRates := calculateResourceRates cfg newTiles
    ({ tiles := newTiles,
       resources := { s.resources with gold := s.resources.gold - cfg.TILE_PURCHASE_COST },
       resourceRates := newRates,
       resourceModifiers := newRates.modifiers }, true)

/-- The castle search of `upgradeCastle`: the first cell in row-major order
whose biome is the castle biome (ownership is not checked here; both loops
are exited on the first hit). -/
def findCastle (cfg : Config) (tiles : GridF) : Option (ℕ × ℕ) :=
  ((List.range cfg.GRID_HEIGHT).flatMap (fun y =>
    (List.range cfg.GRID_SIZE).map (fun x => (y, x)))).find?
    (fun p => (tiles p.1 p.2).biome == "castle")

/-- `upgradeCastle`.  Fails (state unchanged) when no castle cell is found,
when the castle has no upgrade cost or no nonzero level, when the level has
reached `maxLevel`, or when the cost is unaffordable.  On success the castle
level increments, the stored cost becomes `upgradeCosts[oldLevel]` (absent
entry read as none), the old cost is deducted, and rates are recomputed. -/
def upgradeCastle (cfg : Config) (s : GameState) : GameState × Bool :=
  match findCastle cfg s.tiles with
  | none => (s, false)
  | some (cy, cx) =>
    let castle := s.tiles cy cx
    match castle.upgradeCost, castle.level with
    | none, _ => (s, false)
    | some _, none => (s, false)
    | some cost, some lvl =>
      if lvl = 0 then (s, false)
      else if cfg.maxLevel ≤ lvl then (s, false)
      else if !(canAffordCost s.resources cost) then (s, false)
      else
        let newTile : Tile := { castle with level := some (lvl + 1), upgradeCost := cfg.upgradeCosts[lvl]? }
        let newTiles := setTile s.tiles cy cx newTile
        let newResources := deductCost s.resources cost
        let newRates := calculateResourceRates cfg newTiles
        ({ tiles := newTiles, resources := newResources,
           resourceRates := newRates, resourceModifiers := newRates.modifiers }, true)

/-- `tick (deltaTime)`: convert milliseconds to seconds and add
`total[r] * secondsElapsed` to each resource kind named in the rate bundle;
the experience counter is not named there and stays put. -/
def tick (s : GameState) (deltaTime : ℚ) : GameState :=
  let secondsElapsed := deltaTime / 1000
  { s with resources :=
    { s.resources with
      gold := s.resources.gold + s.resourceRates.total.gold * secondsElapsed,
      wood := s.resources.wood + s.resourceRates.total.wood * secondsElapsed,
      stone := s.resources.stone + s.resourceRates.total.stone * secondsElapsed,
      coal := s.resources.coal + s.resourceRates.total.coal * secondsElapsed,
      food := s.resources.food + s.resourceRates.total.food * secondsElapsed } }

/-- One engine step: a tile purchase at an in-bounds coordinate (the caller
contract of the store), a castle upgrade, or a tick. -/
inductive Step (cfg : Config) : GameState → GameState → Prop
  | buy (s : GameState) (x y r : ℕ) (hx : x < cfg.GRID_SIZE) (hy : y < cfg.GRID_HEIGHT) :
      Step cfg s (buyTile cfg s x y r).1
  | upgrade (s : GameState) : Step cfg s (upgradeCastle cfg s).1
  | tick (s : GameState) (dt : ℚ) : Step cfg s (tick s dt)

/-- States reachable from the initial state by engine steps. -/
def Reachable (cfg : Config) (s : GameState) : Prop :=
  Relation.ReflTransGen (Step cfg) (initState cfg) s

/-! ### Spec-side predicates -/

/-- The adjacency condition exactly as the spec words it, for an in-bounds
target: at least one of the four in-bounds neighbors (left, right, up,
down; no diagonals) is owned.  To be compared with `isAdjacentToOwned`. -/
def adjacentToOwnedSpec (cfg : Config) (g : GridF) (x y : ℕ) : Prop :=
  (1 ≤ x ∧ (g y (x - 1)).isOwned = true) ∨
  (x + 1 < cfg.GRID_SIZE ∧ (g y (x + 1)).isOwned = true) ∨
  (1 ≤ y ∧ (g (y - 1) x).isOwned = true) ∨
  (y + 1 < cfg.GRID_HEIGHT ∧ (g (y + 1) x).isOwned = true)

/-- The rate identity of the spec: `total = base * modifiers` componentwise. -/
def ratesConsistent (rr : ResourceRates) : Prop :=
  rr.total = mulB rr.base rr.modifiers

/-- The rate identity holds of the rate structure a state stores. -/
def stateRatesConsistent (s : GameState) : Prop :=
  ratesConsistent s.resourceRates

/-- One resource of the holdings after an upgrade: decreased by exactly the
amount the cost names for it, or unchanged when the cost does not name it. -/
def deductSpec (oldv newv : ℚ) (c : Option ℚ) : Prop :=
  match c with
  | some a => newv = oldv - a
  | none => newv = oldv

/-- The first owned castle cell of the whole grid in row-major scan order
(the cell the spec claims is the only one contributing castle rates). -/
def firstOwnedCastle (cfg : Config) (tiles : GridF) : Option (ℕ × ℕ) :=
  ((List.range cfg.GRID_HEIGHT).flatMap (fun y =>
    (List.range cfg.GRID_SIZE).map (fun x => (y, x)))).find?
    (fun p => isOwnedCastle tiles p.1 p.2)

/-- The one-castle grid invariant: within bounds, a cell has the castle biome
exactly when it is the center cell, and the center cell is owned. -/
def castleInv (cfg : Config) (g : GridF) : Prop :=
  (∀ y < cfg.GRID_HEIGHT, ∀ x < cfg.GRID_SIZE,
    ((g y x).biome = "castle" ↔ (y = cfg.centerY ∧ x = cfg.centerX))) ∧
  (g cfg.centerY cfg.centerX).isOwned = true

/-! ### A concrete configuration instance

Used to exercise the definitions on explicit inputs: a 3 by 3 grid, two
purchasable biomes, a three-level castle with a two-entry cost table. -/

/-- A concrete configuration instance, consistent with the spec's description
of the catalog (costs table covering levels below the maximum). -/
def sampleConfig : Config :=
  { GRID_SIZE := 3, GRID_HEIGHT := 3, TILE_PURCHASE_COST := 10,
    INITIAL_RESOURCES := { gold := 100, wood := 50, stone := 50, coal := 20, food := 30, xp := 0 },
    BASE_GENERATION_RATES := { gold := 1, wood := 2, stone := 0, coal := 0, food := 1 },
    CASTLE_BASE_RATES := { gold := 3, wood := 0, stone := 1, coal := 0, food := 0 },
    BIOMES := [("empty", {}), ("castle", {}), ("grounds", {}),
               ("forest", { wood := some 2 }), ("plains", { food := some (3 / 2) })],
    maxLevel := 3, levelMultiplier := 2,
    upgradeCosts := [{ gold := some 50, wood := some 20 }, { gold := some 200 }] }

/-- A grid holding owned castle tiles in two different rows (rows 0 and 1,
column 0), everything else empty. -/
def gridTwoCastles : GridF := fun y x =>
  if (y = 0 ∧ x = 0) ∨ (y = 1 ∧ x = 0) then
    { biome := "castle", isOwned := true, level := some 1 }
  else
    { biome := "empty", isOwned := false }

/-! ### Case-analysis helpers for the two fallible operations -/

/-- `buyTile` either fails returning the state unchanged (with one of the
three preconditions violated), or succeeds with the explicit updated
state. -/
theorem buyTile_cases (cfg : Config) (s : GameState) (x y r : ℕ) :
    (buyTile cfg s x y r = (s, false) ∧
      ((s.tiles y x).isOwned = true ∨ isAdjacentToOwned cfg s.tiles x y = false ∨
        s.resources.gold < cfg.TILE_PURCHASE_COST)) ∨
    ((s.tiles y x).isOwned = false ∧ isAdjacentToOwned cfg s.tiles x y = true ∧
      cfg.TILE_PURCHASE_COST ≤ s.resources.gold ∧
      buyTile cfg s x y r =
        ({ tiles := setTile s.tiles y x
             { biome := (availableBiomes cfg).getD (r % (availableBiomes cfg).length) "empty",
               isOwned := true },
           resources := { s.resources with gold := s.resources.gold - cfg.TILE_PURCHASE_COST },
           resourceRates := calculateResourceRates cfg (setTile s.tiles y x
             { biome := (availableBiomes cfg).getD (r % (availableBiomes cfg).length) "empty",
               isOwned := true }),
           resourceModifiers := (calculateResourceRates cfg (setTile s.tiles y x
             { biome := (availableBiomes cfg).getD (r % (availableBiomes cfg).length) "empty",
               isOwned := true })).modifiers }, true)) := by
  by_cases h1 : (s.tiles y x).isOwned = true
  · left
    refine ⟨?_, Or.inl h1⟩
    unfold buyTile
    simp [h1]
  · by_cases h2 : isAdjacentToOwned cfg s.tiles x y = true
    · by_cases h3 : s.resources.gold < cfg.TILE_PURCHASE_COST
      · left
        refine ⟨?_, Or.inr (Or.inr h3)⟩
        unfold buyTile
        simp [h1, h2, h3]
      · right
        refine ⟨by simp only [Bool.not_eq_true] at h1; exact h1, h2, le_of_not_lt h3, ?_⟩
        unfold buyTile
        simp [h1, h2, h3]
    · left
      refine ⟨?_, Or.inr (Or.inl (by simp only [Bool.not_eq_true] at h2; exact h2))⟩
      unfold buyTile
      simp [h1, h2]

/-- `upgradeCastle` either fails returning the state unchanged, or succeeds
with the explicit updated state, having found a castle with a stored cost
and a nonzero level below the maximum, affordably. -/
theorem upgradeCastle_cases (cfg : Config) (s : GameState) :
    (upgradeCastle cfg s = (s, false)) ∨
    (∃ cy cx cost lvl, findCastle cfg s.tiles = some (cy, cx) ∧
      (s.tiles cy cx).upgradeCost = some cost ∧
      (s.tiles cy cx).level = some lvl ∧
      lvl ≠ 0 ∧ lvl < cfg.maxLevel ∧ canAffordCost s.resources cost = true ∧
      upgradeCastle cfg s =
        ({ tiles := setTile s.tiles cy cx
             { s.tiles cy cx with level := some (lvl + 1), upgradeCost := cfg.upgradeCosts[lvl]? },
           resources := deductCost s.resources cost,
           resourceRates := calculateResourceRates cfg (setTile s.tiles cy cx
             { s.tiles cy cx with level := some (lvl + 1), upgradeCost := cfg.upgradeCosts[lvl]? }),
           resourceModifiers := (calculateResourceRates cfg (setTile s.tiles cy cx
             { s.tiles cy cx with level := some (lvl + 1), upgradeCost := cfg.upgradeCosts[lvl]? })).modifiers }, true)) := by
  rcases hF : findCastle cfg s.tiles with _ | ⟨cy, cx⟩
  · left
    unfold upgradeCastle
    rw [hF]
  · rcases hC : (s.tiles cy cx).upgradeCost with _ | cost
    · left
      unfold upgradeCastle
      rw [hF]
      simp [hC]
    · rcases hL : (s.tiles cy cx).level with _ | lvl
      · left
        unfold upgradeCastle
        rw [hF]
        simp [hC, hL]
      · by_cases h0 : lvl = 0
        · left
          unfold upgradeCastle
          rw [hF]
          simp [hC, hL, h0]
        · by_cases hM : cfg.maxLevel ≤ lvl
          · left
            unfold upgradeCastle
            rw [hF]
            simp [hC, hL, h0, hM]
          · by_cases hA : canAffordCost s.resources cost = true
            · right
              refine ⟨cy, cx, cost, lvl, rfl, hC, hL, h0, lt_of_not_le hM, hA, ?_⟩
              unfold upgradeCastle
              rw [hF]
              simp [hC, hL, h0, hM, hA]
            · left
              unfold upgradeCastle
              rw [hF]
              simp [hC, hL, h0, hM, hA]

/-- A `find?` returning the unique element satisfying the predicate. -/
theorem find?_eq_some_unique {α : Type} {p : α → Bool} :
    ∀ {l : List α} {a : α}, a ∈ l → p a = true → (∀ b ∈ l, p b = true → b = a) →
      l.find? p = some a := by
  intro l
  induction l with
  | nil => intro a hmem _ _; cases hmem
  | cons hd tl ih =>
    intro a hmem hp huniq
    rcases List.mem_cons.mp hmem with h | h
    · subst h
      simp [List.find?_cons, hp]
    · by_cases hhd : p hd = true
      · have he : hd = a := huniq hd (List.mem_cons_self hd tl) hhd
        subst he
        simp [List.find?_cons, hhd]
      · rw [List.find?_cons_of_neg _ (by simp [hhd])]
        exact ih h hp (fun b hb hpb => huniq b (List.mem_cons_of_mem _ hb) hpb)

/-- Folding a step function that fixes every list element is the identity. -/
theorem foldl_fix_id {α : Type} {step : α → ℕ → α} :
    ∀ (l : List ℕ), (∀ b, ∀ y ∈ l, step b y = b) → ∀ init, l.foldl step init = init := by
  intro l
  induction l with
  | nil => intro _ init; rfl
  | cons hd tl ih =>
    intro hid init
    rw [List.foldl_cons, hid init hd (List.mem_cons_self hd tl)]
    exact ih (fun b y hy => hid b y (List.mem_cons_of_mem _ hy)) init

/-- Folding a step function that fixes every element except one, where it
adds the bundle `v`, adds `v` exactly once over a duplicate-free list. -/
theorem foldl_addB_single {step : RBundle → ℕ → RBundle} {y0 : ℕ} {v : RBundle} :
    ∀ (l : List ℕ), (∀ b, ∀ y ∈ l, y ≠ y0 → step b y = b) → (∀ b, step b y0 = addB b v) →
      y0 ∈ l → l.Nodup → ∀ init, l.foldl step init = addB init v := by
  intro l
  induction l with
  | nil => intro _ _ hmem _ _; cases hmem
  | cons hd tl ih =>
    intro hother hy0 hmem hnd init
    rcases List.mem_cons.mp hmem with h | h
    · subst h
      rw [List.foldl_cons, hy0]
      refine foldl_fix_id tl (fun b y hy => ?_) _
      have hne : y ≠ y0 := fun e => (List.nodup_cons.mp hnd).1 (e ▸ hy)
      exact hother b y (List.mem_cons_of_mem _ hy) hne
    · have hhd : hd ≠ y0 := fun e => (List.nodup_cons.mp hnd).1 (e ▸ h)
      rw [List.foldl_cons, hother init hd (List.mem_cons_self hd tl) hhd]
      exact ih (fun b y hy hne => hother b y (List.mem_cons_of_mem _ hy) hne) hy0 h
        (List.nodup_cons.mp hnd).2 init

/-- The code adjacency check agrees with the spec wording of adjacency at
every in-bounds coordinate. -/
theorem isAdjacent_iff_spec (cfg : Config) (g : GridF) (x y : ℕ)
    (hx : x < cfg.GRID_SIZE) (hy : y < cfg.GRID_HEIGHT) :
    isAdjacentToOwned cfg g x y = true ↔ adjacentToOwnedSpec cfg g x y := by
  unfold isAdjacentToOwned adjacentToOwnedSpec
  simp only [List.any_cons, List.any_nil, Bool.or_false, Bool.or_eq_true,
    Bool.and_eq_true, decide_eq_true_eq]
  have e1 : ((y : ℤ) + 0).toNat = y := by omega
  have e2 : ((x : ℤ) + -1).toNat = x - 1 := by omega
  have e3 : ((x : ℤ) + 1).toNat = x + 1 := by omega
  have e4 : ((x : ℤ) + 0).toNat = x := by omega
  have e5 : ((y : ℤ) + -1).toNat = y - 1 := by omega
  have e6 : ((y : ℤ) + 1).toNat = y + 1 := by omega
  rw [e1, e2, e3, e4, e5, e6]
  constructor
  · rintro (h | h | h | h)
    · exact Or.inl ⟨by omega, h.2⟩
    · exact Or.inr (Or.inl ⟨by omega, h.2⟩)
    · exact Or.inr (Or.inr (Or.inl ⟨by omega, h.2⟩))
    · exact Or.inr (Or.inr (Or.inr ⟨by omega, h.2⟩))
  · rintro (h | h | h | h)
    · exact Or.inl ⟨⟨⟨⟨by omega, by omega⟩, by omega⟩, by omega⟩, h.2⟩
    · exact Or.inr (Or.inl ⟨⟨⟨⟨by omega, by omega⟩, by omega⟩, by omega⟩, h.2⟩)
    · exact Or.inr (Or.inr (Or.inl ⟨⟨⟨⟨by omega, by omega⟩, by omega⟩, by omega⟩, h.2⟩))
    · exact Or.inr (Or.inr (Or.inr ⟨⟨⟨⟨by omega, by omega⟩, by omega⟩, by omega⟩, h.2⟩))

/-- `deductCost` satisfies the per-resource deduction description for all
six resource kinds. -/
theorem deductCost_spec (res : Resources) (cost : PCost) :
    deductSpec res.gold (deductCost res cost).gold cost.gold ∧
    deductSpec res.wood (deductCost res cost).wood cost.wood ∧
    deductSpec res.stone (deductCost res cost).stone cost.stone ∧
    deductSpec res.coal (deductCost res cost).coal cost.coal ∧
    deductSpec res.food (deductCost res cost).food cost.food ∧
    deductSpec res.xp (deductCost res cost).xp cost.xp := by
  unfold deductSpec deductCost
  refine ⟨?_, ?_, ?_, ?_, ?_, ?_⟩
  · cases cost.gold <;> rfl
  · cases cost.wood <;> rfl
  · cases cost.stone <;> rfl
  · cases cost.coal <;> rfl
  · cases cost.food <;> rfl
  · cases cost.xp <;> rfl

/-- The grid center row is in bounds whenever the grid has a row. -/
theorem centerY_lt (cfg : Config) (hH : 0 < cfg.GRID_HEIGHT) :
    cfg.centerY < cfg.GRID_HEIGHT := by
  unfold Config.centerY; omega

/-- The grid center column is in bounds whenever the grid has a column. -/
theorem centerX_lt (cfg : Config) (hW : 0 < cfg.GRID_SIZE) :
    cfg.centerX < cfg.GRID_SIZE := by
  unfold Config.centerX; omega

/-- Membership in `availableBiomes`: exactly the catalog names outside the
excluded empty, castle and grounds categories. -/
theorem mem_availableBiomes_iff (cfg : Config) (b : String) :
    b ∈ availableBiomes cfg ↔
      (b ∈ cfg.BIOMES.map Prod.fst ∧ ¬ b ∈ (["empty", "castle", "grounds"] : List String)) := by
  unfold availableBiomes
  simp only [List.mem_map, List.mem_filter, Bool.not_eq_true']
  constructor
  · rintro ⟨e, ⟨hmem, hexcl⟩, rfl⟩
    exact ⟨⟨e, hmem, rfl⟩, by simpa using hexcl⟩
  · rintro ⟨⟨e, hmem, rfl⟩, hnot⟩
    exact ⟨e, ⟨hmem, by simpa using hnot⟩, rfl⟩

/-- When the filtered catalog is nonempty, the randomly indexed biome is one
of its entries. -/
theorem chosen_mem_availableBiomes (cfg : Config) (r : ℕ) (hne : availableBiomes cfg ≠ []) :
    (availableBiomes cfg).getD (r % (availableBiomes cfg).length) "empty" ∈
      availableBiomes cfg := by
  have hlen : 0 < (availableBiomes cfg).length := List.length_pos.mpr hne
  rw [List.getD_eq_getElem _ _ (Nat.mod_lt _ hlen)]
  exact List.getElem_mem _

/-- The biome selected by a purchase is never the castle biome. -/
theorem chosenBiome_ne_castle (cfg : Config) (r : ℕ) :
    (availableBiomes cfg).getD (r % (availableBiomes cfg).length) "empty" ≠ "castle" := by
  by_cases hne : availableBiomes cfg = []
  · rw [hne]
    simp
  · intro hcl
    have hmem := chosen_mem_availableBiomes cfg r hne
    rw [hcl] at hmem
    have hchar := (mem_availableBiomes_iff cfg "castle").mp hmem
    exact hchar.2 (by simp)

/-- The initial grid satisfies the one-castle-at-center invariant. -/
theorem initGrid_castleInv (cfg : Config) : castleInv cfg (createInitialGrid cfg) := by
  constructor
  · intro y hy x hx
    unfold createInitialGrid
    by_cases h : y = cfg.centerY ∧ x = cfg.centerX
    · rw [if_pos h]
      exact iff_of_true rfl h
    · rw [if_neg h]
      exact iff_of_false (by simp) h
  · unfold createInitialGrid
    rw [if_pos ⟨rfl, rfl⟩]

/-- Under the invariant, the castle search of `upgradeCastle` finds exactly
the center cell. -/
theorem findCastle_of_inv (cfg : Config) (g : GridF) (hW : 0 < cfg.GRID_SIZE)
    (hH : 0 < cfg.GRID_HEIGHT) (hinv : castleInv cfg g) :
    findCastle cfg g = some (cfg.centerY, cfg.centerX) := by
  apply find?_eq_some_unique
  · simp only [List.mem_flatMap, List.mem_map, List.mem_range]
    exact ⟨cfg.centerY, centerY_lt cfg hH, cfg.centerX, centerX_lt cfg hW, rfl⟩
  · have hb : (g cfg.centerY cfg.centerX).biome = "castle" :=
      (hinv.1 _ (centerY_lt cfg hH) _ (centerX_lt cfg hW)).mpr ⟨rfl, rfl⟩
    exact beq_iff_eq.mpr hb
  · rintro ⟨b1, b2⟩ hmem hp
    simp only [List.mem_flatMap, List.mem_map, List.mem_range] at hmem
    obtain ⟨a, ha, b, hb2, heq2⟩ := hmem
    injection heq2 with e1 e2
    subst e1; subst e2
    have hbio : (g a b).biome = "castle" := beq_iff_eq.mp hp
    obtain ⟨f1, f2⟩ := (hinv.1 a ha b hb2).mp hbio
    rw [f1, f2]

/-- Each engine step preserves the one-castle-at-center invariant. -/
theorem step_preserves_castleInv (cfg : Config) (hW : 0 < cfg.GRID_SIZE)
    (hH : 0 < cfg.GRID_HEIGHT) {s t : GameState} (hstep : Step cfg s t)
    (hinv : castleInv cfg s.tiles) : castleInv cfg t.tiles := by
  cases hstep with
  | buy x y r hx hy =>
    rcases buyTile_cases cfg s x y r with ⟨heq, _⟩ | ⟨h1, h2, h3, heq⟩
    · rw [heq]; exact hinv
    · rw [heq]
      have hne_center : ¬(y = cfg.centerY ∧ x = cfg.centerX) := by
        rintro ⟨rfl, rfl⟩
        rw [hinv.2] at h1
        cases h1
      constructor
      · intro y1 hy1 x1 hx1
        simp only [setTile]
        split
        · rename_i hcond
          obtain ⟨rfl, rfl⟩ := hcond
          constructor
          · intro hbio
            exact absurd hbio (chosenBiome_ne_castle cfg r)
          · intro hc
            exact absurd hc hne_center
        · exact hinv.1 y1 hy1 x1 hx1
      · simp only [setTile]
        split
        · rename_i hcond
          exact absurd ⟨hcond.1.symm, hcond.2.symm⟩ hne_center
        · exact hinv.2
  | upgrade =>
    rcases upgradeCastle_cases cfg s with heq | ⟨cy, cx, cost, lvl, hF, hC, hL, h0, hM, hA, heq⟩
    · rw [heq]; exact hinv
    · rw [heq]
      have hcenter := findCastle_of_inv cfg s.tiles hW hH hinv
      rw [hF] at hcenter
      injection hcenter with hpair
      injection hpair with e1 e2
      subst e1; subst e2
      constructor
      · intro y1 hy1 x1 hx1
        simp only [setTile]
        split
        · rename_i hcond
          obtain ⟨rfl, rfl⟩ := hcond
          constructor
          · intro _
            exact ⟨rfl, rfl⟩
          · intro _
            show (s.tiles cfg.centerY cfg.centerX).biome = "castle"
            exact (hinv.1 _ (centerY_lt cfg hH) _ (centerX_lt cfg hW)).mpr ⟨rfl, rfl⟩
        · exact hinv.1 y1 hy1 x1 hx1
      · simp only [setTile]
        split
        · show (s.tiles cfg.centerY cfg.centerX).isOwned = true
          exact hinv.2
        · exact hinv.2
  | tick dt => exact hinv

/-! ### Claim theorems -/

/-- Claim C9: `tick` modifies only the resources field of the state: for
every elapsed time, the tile grid, the stored rates and the stored modifier
bundle are unchanged by `tick`. -/
theorem tick_frame : ∀ (s : GameState) (dt : ℚ),
    (tick s dt).tiles = s.tiles ∧ (tick s dt).resourceRates = s.resourceRates ∧
    (tick s dt).resourceModifiers = s.resourceModifiers :=
  fun _ _ => ⟨rfl, rfl, rfl⟩

/-- Claim C5: `tick dt` adds exactly `total[r] * (dt / 1000)` to each of the
five resource kinds the rate bundle names, leaves the experience counter
unchanged, and in particular `tick 1000` adds exactly `total[r]` and
`tick 0` leaves the holdings unchanged. -/
theorem tick_adds_rates : ∀ (s : GameState) (dt : ℚ),
    ((tick s dt).resources.gold = s.resources.gold + s.resourceRates.total.gold * (dt / 1000) ∧
     (tick s dt).resources.wood = s.resources.wood + s.resourceRates.total.wood * (dt / 1000) ∧
     (tick s dt).resources.stone = s.resources.stone + s.resourceRates.total.stone * (dt / 1000) ∧
     (tick s dt).resources.coal = s.resources.coal + s.resourceRates.total.coal * (dt / 1000) ∧
     (tick s dt).resources.food = s.resources.food + s.resourceRates.total.food * (dt / 1000) ∧
     (tick s dt).resources.xp = s.resources.xp) ∧
    ((tick s 1000).resources.gold = s.resources.gold + s.resourceRates.total.gold ∧
     (tick s 1000).resources.wood = s.resources.wood + s.resourceRates.total.wood ∧
     (tick s 1000).resources.stone = s.resources.stone + s.resourceRates.total.stone ∧
     (tick s 1000).resources.coal = s.resources.coal + s.resourceRates.total.coal ∧
     (tick s 1000).resources.food = s.resources.food + s.resourceRates.total.food) ∧
    (tick s 0).resources = s.resources := by
  intro s dt
  refine ⟨⟨rfl, rfl, rfl, rfl, rfl, rfl⟩, ⟨?_, ?_, ?_, ?_, ?_⟩, ?_⟩
  · show s.resources.gold + s.resourceRates.total.gold * ((1000 : ℚ) / 1000) = _
    norm_num
  · show s.resources.wood + s.resourceRates.total.wood * ((1000 : ℚ) / 1000) = _
    norm_num
  · show s.resources.stone + s.resourceRates.total.stone * ((1000 : ℚ) / 1000) = _
    norm_num
  · show s.resources.coal + s.resourceRates.total.coal * ((1000 : ℚ) / 1000) = _
    norm_num
  · show s.resources.food + s.resourceRates.total.food * ((1000 : ℚ) / 1000) = _
    norm_num
  · simp [tick]

/-- Claim C3: the rate calculator returns a structure with
`total = base * modifiers` componentwise, and this identity holds of the
stored `resourceRates` after initialization and after each of `buyTile`,
`upgradeCastle` and `tick`. -/
theorem rates_total_identity :
    (∀ (cfg : Config) (tiles : GridF), ratesConsistent (calculateResourceRates cfg tiles)) ∧
    (∀ cfg : Config, stateRatesConsistent (initState cfg)) ∧
    (∀ (cfg : Config) (s : GameState) (x y r : ℕ), stateRatesConsistent s →
      stateRatesConsistent (buyTile cfg s x y r).1) ∧
    (∀ (cfg : Config) (s : GameState), stateRatesConsistent s →
      stateRatesConsistent (upgradeCastle cfg s).1) ∧
    (∀ (s : GameState) (dt : ℚ), stateRatesConsistent s → stateRatesConsistent (tick s dt)) := by
  refine ⟨fun _ _ => rfl, fun _ => rfl, ?_, ?_, fun _ _ h => h⟩
  · intro cfg s x y r h
    rcases buyTile_cases cfg s x y r with ⟨heq, _⟩ | ⟨_, _, _, heq⟩
    · rw [heq]; exact h
    · rw [heq]; rfl
  · intro cfg s h
    rcases upgradeCastle_cases cfg s with heq | ⟨_, _, _, _, _, _, _, _, _, _, heq⟩
    · rw [heq]; exact h
    · rw [heq]; rfl

/-- Witness for claim C3 at the concrete configuration: the identity holds
of the initial state and is carried through a purchase, an upgrade and a
tick. -/
theorem rates_total_identity_witness :
    stateRatesConsistent (initState sampleConfig) ∧
    stateRatesConsistent (buyTile sampleConfig (initState sampleConfig) 1 0 0).1 ∧
    stateRatesConsistent (upgradeCastle sampleConfig (initState sampleConfig)).1 ∧
    stateRatesConsistent (tick (initState sampleConfig) 1000) :=
  ⟨rates_total_identity.2.1 sampleConfig,
   rates_total_identity.2.2.1 sampleConfig (initState sampleConfig) 1 0 0 rfl,
   rates_total_identity.2.2.2.1 sampleConfig (initState sampleConfig) rfl,
   rates_total_identity.2.2.2.2 (initState sampleConfig) 1000 rfl⟩

/-- Claim C6: both fallible operations signal failure by returning false
with the whole state unchanged: `buyTile` whenever the target is owned, or
not adjacent to an owned tile, or gold is short of the purchase cost;
`upgradeCastle` whenever the found castle is at the maximum level or some
resource named in the stored cost is insufficient. -/
theorem op_failure_no_mutation :
    (∀ (cfg : Config) (s : GameState) (x y r : ℕ),
      ((s.tiles y x).isOwned = true ∨ isAdjacentToOwned cfg s.tiles x y = false ∨
        s.resources.gold < cfg.TILE_PURCHASE_COST) →
      buyTile cfg s x y r = (s, false)) ∧
    (∀ (cfg : Config) (s : GameState) (cy cx : ℕ) (cost : PCost) (lvl : ℕ),
      findCastle cfg s.tiles = some (cy, cx) →
      (s.tiles cy cx).upgradeCost = some cost →
      (s.tiles cy cx).level = some lvl →
      (cfg.maxLevel ≤ lvl ∨ canAffordCost s.resources cost = false) →
      upgradeCastle cfg s = (s, false)) := by
  constructor
  · intro cfg s x y r h
    rcases buyTile_cases cfg s x y r with ⟨heq, _⟩ | ⟨h1, h2, h3, _⟩
    · exact heq
    · rcases h with h | h | h
      · rw [h1] at h; cases h
      · rw [h2] at h; cases h
      · exact absurd h3 (not_le.mpr h)
  · intro cfg s cy cx cost lvl hfind hcost hlvl h
    rcases upgradeCastle_cases cfg s with heq | ⟨cy2, cx2, cost2, lvl2, hF, hC, hL, _, hM, hA, _⟩
    · exact heq
    · rw [hfind] at hF
      simp only [Option.some.injEq, Prod.mk.injEq] at hF
      obtain ⟨e1, e2⟩ := hF
      subst e1; subst e2
      rw [hcost] at hC
      simp only [Option.some.injEq] at hC
      subst hC
      rw [hlvl] at hL
      simp only [Option.some.injEq] at hL
      subst hL
      rcases h with h | h
      · exact absurd hM (not_lt.mpr h)
      · rw [h] at hA; cases hA

/-- Witness for claim C6 at the concrete configuration: buying the owned
center tile fails without mutation, and upgrading with empty holdings fails
without mutation. -/
theorem op_failure_no_mutation_witness :
    buyTile sampleConfig (initState sampleConfig) 1 1 0 = (initState sampleConfig, false) ∧
    (upgradeCastle sampleConfig
      { initState sampleConfig with
        resources := { gold := 0, wood := 0, stone := 0, coal := 0, food := 0, xp := 0 } } =
      ({ initState sampleConfig with
        resources := { gold := 0, wood := 0, stone := 0, coal := 0, food := 0, xp := 0 } }, false)) :=
  ⟨op_failure_no_mutation.1 sampleConfig (initState sampleConfig) 1 1 0 (Or.inl (by decide)),
   op_failure_no_mutation.2 sampleConfig _ 1 1
     { gold := some 50, wood := some 20 } 1 (by decide) (by decide) (by decide)
     (Or.inr (by decide))⟩

/-- Claim C8: tile ownership never reverts: for every cell, each of the
three operations maps an owned cell to an owned cell. -/
theorem ownership_monotone : ∀ (cfg : Config) (s : GameState) (x y r : ℕ) (dt : ℚ) (b a : ℕ),
    ((s.tiles b a).isOwned = true → ((buyTile cfg s x y r).1.tiles b a).isOwned = true) ∧
    ((s.tiles b a).isOwned = true → ((upgradeCastle cfg s).1.tiles b a).isOwned = true) ∧
    ((s.tiles b a).isOwned = true → ((tick s dt).tiles b a).isOwned = true) := by
  intro cfg s x y r dt b a
  refine ⟨?_, ?_, fun h => h⟩
  · intro h
    rcases buyTile_cases cfg s x y r with ⟨heq, _⟩ | ⟨_, _, _, heq⟩
    · rw [heq]; exact h
    · rw [heq]
      simp only [setTile]
      split
      · rfl
      · exact h
  · intro h
    rcases upgradeCastle_cases cfg s with heq | ⟨cy, cx, cost, lvl, _, _, _, _, _, _, heq⟩
    · rw [heq]; exact h
    · rw [heq]
      simp only [setTile]
      split
      · rename_i hcond
        obtain ⟨e1, e2⟩ := hcond
        subst e1; subst e2
        exact h
      · exact h

/-- Witness for claim C8 at the concrete configuration: the owned center
tile stays owned through a successful purchase, an upgrade and a tick. -/
theorem ownership_monotone_witness :
    ((initState sampleConfig).tiles 1 1).isOwned = true ∧
    ((buyTile sampleConfig (initState sampleConfig) 1 0 0).1.tiles 1 1).isOwned = true ∧
    ((upgradeCastle sampleConfig (initState sampleConfig)).1.tiles 1 1).isOwned = true ∧
    ((tick (initState sampleConfig) 1000).tiles 1 1).isOwned = true :=
  ⟨by decide,
   (ownership_monotone sampleConfig (initState sampleConfig) 1 0 0 0 1 1).1 (by decide),
   (ownership_monotone sampleConfig (initState sampleConfig) 1 0 0 0 1 1).2.1 (by decide),
   (ownership_monotone sampleConfig (initState sampleConfig) 1 0 0 0 1 1).2.2 (by decide)⟩

/-- Claim C10: a successful mutating operation rewrites at most one grid
cell: a successful `buyTile (x, y)` leaves every cell other than `(x, y)`
unchanged, and a successful `upgradeCastle` leaves every cell other than the
found castle cell unchanged. -/
theorem mutation_single_cell : ∀ (cfg : Config) (s : GameState) (x y r : ℕ),
    ((buyTile cfg s x y r).2 = true →
      ∀ b a, ¬(b = y ∧ a = x) → (buyTile cfg s x y r).1.tiles b a = s.tiles b a) ∧
    ((upgradeCastle cfg s).2 = true →
      ∃ cy cx, findCastle cfg s.tiles = some (cy, cx) ∧
        ∀ b a, ¬(b = cy ∧ a = cx) → (upgradeCastle cfg s).1.tiles b a = s.tiles b a) := by
  intro cfg s x y r
  constructor
  · intro hs b a hne
    rcases buyTile_cases cfg s x y r with ⟨heq, _⟩ | ⟨_, _, _, heq⟩
    · rw [heq] at hs; cases hs
    · rw [heq]
      simp only [setTile]
      rw [if_neg hne]
  · intro hs
    rcases upgradeCastle_cases cfg s with heq | ⟨cy, cx, cost, lvl, hF, _, _, _, _, _, heq⟩
    · rw [heq] at hs; cases hs
    · refine ⟨cy, cx, hF, fun b a hne => ?_⟩
      rw [heq]
      simp only [setTile]
      rw [if_neg hne]

/-- Witness for claim C10 at the concrete configuration: a successful
purchase at (1, 0) leaves the center cell unchanged, and a successful
upgrade leaves the cell (0, 1) unchanged. -/
theorem mutation_single_cell_witness :
    ((buyTile sampleConfig (initState sampleConfig) 1 0 0).2 = true ∧
      (buyTile sampleConfig (initState sampleConfig) 1 0 0).1.tiles 1 1 =
        (initState sampleConfig).tiles 1 1) ∧
    ((upgradeCastle sampleConfig (initState sampleConfig)).2 = true ∧
      ∃ cy cx, findCastle sampleConfig (initState sampleConfig).tiles = some (cy, cx) ∧
        ∀ b a, ¬(b = cy ∧ a = cx) →
          (upgradeCastle sampleConfig (initState sampleConfig)).1.tiles b a =
            (initState sampleConfig).tiles b a) :=
  ⟨⟨by decide,
    (mutation_single_cell sampleConfig (initState sampleConfig) 1 0 0).1 (by decide) 1 1 (by decide)⟩,
   ⟨by decide,
    (mutation_single_cell sampleConfig (initState sampleConfig) 1 0 0).2 (by decide)⟩⟩

/-- Claim C1: for an in-bounds coordinate, `buyTile (x, y)` succeeds exactly
when the target is unowned, some 4-directional in-bounds neighbor is owned,
and gold covers the fixed purchase cost; on success gold decreases by exactly
the purchase cost, the target becomes owned, and its biome is drawn from the
catalog with the empty, castle and grounds categories excluded. -/
theorem buyTile_spec : ∀ (cfg : Config) (s : GameState) (x y r : ℕ),
    x < cfg.GRID_SIZE → y < cfg.GRID_HEIGHT → availableBiomes cfg ≠ [] →
    (((buyTile cfg s x y r).2 = true) ↔
      ((s.tiles y x).isOwned = false ∧ adjacentToOwnedSpec cfg s.tiles x y ∧
        cfg.TILE_PURCHASE_COST ≤ s.resources.gold)) ∧
    ((buyTile cfg s x y r).2 = true →
      (buyTile cfg s x y r).1.resources.gold = s.resources.gold - cfg.TILE_PURCHASE_COST ∧
      ((buyTile cfg s x y r).1.tiles y x).isOwned = true ∧
      ((buyTile cfg s x y r).1.tiles y x).biome ∈ availableBiomes cfg) ∧
    (∀ b : String, b ∈ availableBiomes cfg ↔
      (b ∈ cfg.BIOMES.map Prod.fst ∧
        ¬ b ∈ (["empty", "castle", "grounds"] : List String))) := by
  intro cfg s x y r hx hy hne
  refine ⟨?_, ?_, fun b => mem_availableBiomes_iff cfg b⟩
  · rcases buyTile_cases cfg s x y r with ⟨heq, hcond⟩ | ⟨h1, h2, h3, heq⟩
    · rw [heq]
      constructor
      · intro h; exact absurd h (by simp)
      · rintro ⟨ho, hadj, hg⟩
        exfalso
        rcases hcond with hc | hc | hc
        · rw [ho] at hc; cases hc
        · rw [(isAdjacent_iff_spec cfg s.tiles x y hx hy).mpr hadj] at hc; cases hc
        · exact absurd hg (not_le.mpr hc)
    · rw [heq]
      exact iff_of_true rfl ⟨h1, (isAdjacent_iff_spec cfg s.tiles x y hx hy).mp h2, h3⟩
  · intro hs
    rcases buyTile_cases cfg s x y r with ⟨heq, _⟩ | ⟨h1, h2, h3, heq⟩
    · rw [heq] at hs; simp at hs
    · rw [heq]
      refine ⟨rfl, by simp [setTile], ?_⟩
      dsimp only
      have hcell : setTile s.tiles y x
          { biome := (availableBiomes cfg).getD (r % (availableBiomes cfg).length) "empty",
            isOwned := true } y x =
          { biome := (availableBiomes cfg).getD (r % (availableBiomes cfg).length) "empty",
            isOwned := true } := by simp [setTile]
      rw [hcell]
      exact chosen_mem_availableBiomes cfg r hne

/-- Witness for claim C1 at the concrete configuration: buying (1, 0) from
the initial state succeeds, costs exactly the purchase price, and lands an
allowed biome. -/
theorem buyTile_spec_witness :
    (buyTile sampleConfig (initState sampleConfig) 1 0 0).2 = true ∧
    (buyTile sampleConfig (initState sampleConfig) 1 0 0).1.resources.gold =
      (initState sampleConfig).resources.gold - sampleConfig.TILE_PURCHASE_COST ∧
    ((buyTile sampleConfig (initState sampleConfig) 1 0 0).1.tiles 0 1).biome ∈
      availableBiomes sampleConfig := by
  have h := buyTile_spec sampleConfig (initState sampleConfig) 1 0 0 (by decide) (by decide)
    (by decide)
  have hs : (buyTile sampleConfig (initState sampleConfig) 1 0 0).2 = true :=
    h.1.mpr ⟨by decide, Or.inr (Or.inr (Or.inr ⟨by decide, by decide⟩)), by decide⟩
  exact ⟨hs, (h.2.1 hs).1, (h.2.1 hs).2.2⟩

/-- Claim C2: whenever `upgradeCastle` succeeds, the found castle's level
increments by exactly 1, its stored upgrade cost becomes the catalog entry
for the new level (absent entry read as none, which under the spec's catalog
shape happens exactly when the new level is the maximum), every resource
named in the pre-mutation cost decreases by exactly that amount, and every
resource the cost does not name is unchanged. -/
theorem upgradeCastle_success_spec : ∀ (cfg : Config) (s : GameState),
    (upgradeCastle cfg s).2 = true →
    ∃ cy cx cost lvl,
      findCastle cfg s.tiles = some (cy, cx) ∧
      (s.tiles cy cx).upgradeCost = some cost ∧
      (s.tiles cy cx).level = some lvl ∧
      ((upgradeCastle cfg s).1.tiles cy cx).level = some (lvl + 1) ∧
      ((upgradeCastle cfg s).1.tiles cy cx).upgradeCost = cfg.upgradeCosts[lvl]? ∧
      (cfg.upgradeCosts.length = cfg.maxLevel - 1 →
        (((upgradeCastle cfg s).1.tiles cy cx).upgradeCost = none ↔ lvl + 1 = cfg.maxLevel)) ∧
      deductSpec s.resources.gold (upgradeCastle cfg s).1.resources.gold cost.gold ∧
      deductSpec s.resources.wood (upgradeCastle cfg s).1.resources.wood cost.wood ∧
      deductSpec s.resources.stone (upgradeCastle cfg s).1.resources.stone cost.stone ∧
      deductSpec s.resources.coal (upgradeCastle cfg s).1.resources.coal cost.coal ∧
      deductSpec s.resources.food (upgradeCastle cfg s).1.resources.food cost.food ∧
      deductSpec s.resources.xp (upgradeCastle cfg s).1.resources.xp cost.xp := by
  intro cfg s hs
  rcases upgradeCastle_cases cfg s with heq | ⟨cy, cx, cost, lvl, hF, hC, hL, h0, hM, hA, heq⟩
  · rw [heq] at hs; simp at hs
  · refine ⟨cy, cx, cost, lvl, hF, hC, hL, ?_, ?_, ?_, ?_, ?_, ?_, ?_, ?_, ?_⟩
    · rw [heq]; simp [setTile]
    · rw [heq]; simp [setTile]
    · intro hlen
      rw [heq]
      dsimp only
      have hcell : setTile s.tiles cy cx
          { s.tiles cy cx with level := some (lvl + 1), upgradeCost := cfg.upgradeCosts[lvl]? } cy cx =
          { s.tiles cy cx with level := some (lvl + 1), upgradeCost := cfg.upgradeCosts[lvl]? } := by
        simp [setTile]
      rw [hcell]
      show cfg.upgradeCosts[lvl]? = none ↔ lvl + 1 = cfg.maxLevel
      rw [List.getElem?_eq_none_iff]
      omega
    · rw [heq]; exact (deductCost_spec s.resources cost).1
    · rw [heq]; exact (deductCost_spec s.resources cost).2.1
    · rw [heq]; exact (deductCost_spec s.resources cost).2.2.1
    · rw [heq]; exact (deductCost_spec s.resources cost).2.2.2.1
    · rw [heq]; exact (deductCost_spec s.resources cost).2.2.2.2.1
    · rw [heq]; exact (deductCost_spec s.resources cost).2.2.2.2.2

/-- Witness for claim C2 at the concrete configuration: the first upgrade
from the initial state takes the castle to level 2. -/
theorem upgradeCastle_success_spec_witness :
    ((upgradeCastle sampleConfig (initState sampleConfig)).1.tiles 1 1).level = some 2 := by
  obtain ⟨cy, cx, cost, lvl, hF, hC, hL, hlev, _⟩ :=
    upgradeCastle_success_spec sampleConfig (initState sampleConfig) (by decide)
  have hF2 : findCastle sampleConfig (initState sampleConfig).tiles = some (1, 1) := by decide
  rw [hF] at hF2
  simp only [Option.some.injEq, Prod.mk.injEq] at hF2
  obtain ⟨e1, e2⟩ := hF2
  subst e1; subst e2
  have hL2 : ((initState sampleConfig).tiles 1 1).level = some 1 := by decide
  rw [hL] at hL2
  simp only [Option.some.injEq] at hL2
  subst hL2
  exact hlev

/-- Claim C4 (amended): the castle scan adds the scaled castle base rates
once per row holding an owned castle tile; when the grid holds exactly one
owned castle tile, the rates are added exactly once and that tile is the
first one of the row-major scan. -/
theorem castle_rates_added_once_unique : ∀ (cfg : Config) (tiles : GridF) (y0 x0 : ℕ),
    y0 < cfg.GRID_HEIGHT → x0 < cfg.GRID_SIZE →
    isOwnedCastle tiles y0 x0 = true →
    (∀ y < cfg.GRID_HEIGHT, ∀ x < cfg.GRID_SIZE,
      isOwnedCastle tiles y x = true → y = y0 ∧ x = x0) →
    firstOwnedCastle cfg tiles = some (y0, x0) ∧
    (calculateResourceRates cfg tiles).base =
      addB cfg.BASE_GENERATION_RATES (scaledCastleRates cfg (tiles y0 x0)) := by
  intro cfg tiles y0 x0 hy hx hc huniq
  constructor
  · apply find?_eq_some_unique
    · simp only [List.mem_flatMap, List.mem_map, List.mem_range]
      exact ⟨y0, hy, x0, hx, rfl⟩
    · exact hc
    · rintro ⟨b1, b2⟩ hmem hp
      simp only [List.mem_flatMap, List.mem_map, List.mem_range] at hmem
      obtain ⟨a, ha, b, hb, heq2⟩ := hmem
      injection heq2 with e1 e2
      subst e1; subst e2
      obtain ⟨f1, f2⟩ := huniq a ha b hb hp
      rw [f1, f2]
  · show castleScanBase cfg tiles = _
    unfold castleScanBase
    refine foldl_addB_single (List.range cfg.GRID_HEIGHT) ?_ ?_
      (List.mem_range.mpr hy) (List.nodup_range _) cfg.BASE_GENERATION_RATES
    · intro b yy hyy hne2
      have hnone : (List.range cfg.GRID_SIZE).find? (fun xx => isOwnedCastle tiles yy xx) =
          none := by
        rw [List.find?_eq_none]
        intro xx hxx hpred
        exact hne2 (huniq yy (List.mem_range.mp hyy) xx (List.mem_range.mp hxx) hpred).1
      rw [hnone]
    · intro b
      have hsome : (List.range cfg.GRID_SIZE).find? (fun xx => isOwnedCastle tiles y0 xx) =
          some x0 := by
        apply find?_eq_some_unique (List.mem_range.mpr hx) hc
        intro xx hxx hpred
        exact (huniq y0 hy xx (List.mem_range.mp hxx) hpred).2
      rw [hsome]

/-- Witness for the amended claim C4 at the concrete configuration: the
initial grid holds exactly one owned castle and its scaled rates enter the
base exactly once. -/
theorem castle_rates_added_once_unique_witness :
    firstOwnedCastle sampleConfig (createInitialGrid sampleConfig) = some (1, 1) ∧
    (calculateResourceRates sampleConfig (createInitialGrid sampleConfig)).base =
      addB sampleConfig.BASE_GENERATION_RATES
        (scaledCastleRates sampleConfig (createInitialGrid sampleConfig 1 1)) := by
  have h := castle_rates_added_once_unique sampleConfig (createInitialGrid sampleConfig) 1 1
    (by decide) (by decide) (by decide) (by decide)
  exact ⟨h.1, h.2⟩

/-- Counterexample to claim C4 as stated: with owned castle tiles in two
different rows (the inner-loop break does not stop the outer row loop), the
castle rates enter the base once per such row; at the concrete grid the gold
base is the global rate plus twice the scaled castle gold rate, not once. -/
theorem castle_rates_added_twice :
    firstOwnedCastle sampleConfig gridTwoCastles = some (0, 0) ∧
    (calculateResourceRates sampleConfig gridTwoCastles).base.gold ≠
      sampleConfig.BASE_GENERATION_RATES.gold +
        (scaledCastleRates sampleConfig (gridTwoCastles 0 0)).gold ∧
    (calculateResourceRates sampleConfig gridTwoCastles).base.gold =
      (sampleConfig.BASE_GENERATION_RATES.gold +
        (scaledCastleRates sampleConfig (gridTwoCastles 0 0)).gold) +
        (scaledCastleRates sampleConfig (gridTwoCastles 1 0)).gold := by
  refine ⟨by decide, ?_, rfl⟩
  show ((1 : ℚ) + 3 * (2 : ℚ) ^ (0 : ℕ)) + 3 * (2 : ℚ) ^ (0 : ℕ) ≠ 1 + 3 * (2 : ℚ) ^ (0 : ℕ)
  norm_num

/-- Claim C7: in every state reachable from initialization by the three
operations (purchases at in-bounds coordinates), exactly one castle-biome
tile exists within bounds, it sits at the fixed grid-center coordinate, and
it is owned. -/
theorem castle_center_invariant : ∀ (cfg : Config) (s : GameState),
    0 < cfg.GRID_SIZE → 0 < cfg.GRID_HEIGHT → Reachable cfg s → castleInv cfg s.tiles := by
  intro cfg s hW hH hr
  induction hr with
  | refl => exact initGrid_castleInv cfg
  | tail hsteps hstep ih => exact step_preserves_castleInv cfg hW hH hstep ih

/-- Witness for claim C7 at the concrete configuration: the invariant holds
of the initial state and of the state after one purchase step. -/
theorem castle_center_invariant_witness :
    castleInv sampleConfig (initState sampleConfig).tiles ∧
    castleInv sampleConfig (buyTile sampleConfig (initState sampleConfig) 1 0 0).1.tiles :=
  ⟨castle_center_invariant sampleConfig (initState sampleConfig) (by decide) (by decide)
     Relation.ReflTransGen.refl,
   castle_center_invariant sampleConfig _ (by decide) (by decide)
     (Relation.ReflTransGen.tail Relation.ReflTransGen.refl
       (Step.buy (initState sampleConfig) 1 0 0 (by decide) (by decide)))⟩

end Idlarz
